import Mathlib

/-!
Verification development for a CHIP-8 interpreter written in C
(`src/chip8/main.c`).  The emulator state (memory, registers, index
register, program counter, call stack, keypad, display, timers and the
key-wait latch) is embedded as a Lean structure; `execOp` is a shallow
embedding of the decode/execute `switch` of `emulate_cycle`, `emulateCycle`
adds the fetch, and `tick` embeds the body of the scheduler loop in `main`.

Machine integers are modelled as `Nat` with explicit truncation (`% 256`,
`% 65536`, `&&& 0xFF`) exactly where a C store or conversion truncates.
The C arrays are modelled as total functions `Nat → Nat`; the C code
performs no bounds checks, and neither does the model, so out-of-range
accesses of the C code show up as reads/writes of the model at indices
beyond the array size.  `CycleResult.errLogged` records whether the cycle
executed one of the `printf("[ERROR] ...")` statements, and
`CycleResult.fatal` records whether it reached the `error(...)` call of the
top-level `default:` branch.
-/

/-- Emulator state: one field per C global that `emulate_cycle` and the
scheduler loop read or write. -/
structure Chip8 where
  memory : Nat → Nat
  V : Nat → Nat
  I : Nat
  PC : Nat
  stack : Nat → Nat
  stack_idx : Nat
  keypad : Nat → Nat
  display : Nat → Nat
  delay_timer : Nat
  sound_timer : Nat
  draw_flag : Nat
  key_found : Bool
  key_pressed : Nat
  rnd : Nat

/-- Result of one `emulate_cycle` call: the new state, the returned
bool (`true` only for `DXYN`), whether an `[ERROR]` line was printed,
and whether the fatal `error(...)` call was reached. -/
structure CycleResult where
  st : Chip8
  drew : Bool
  errLogged : Bool
  fatal : Bool

/-- Pointwise array update. -/
def upd (f : Nat → Nat) (i v : Nat) : Nat → Nat :=
  fun j => if j = i then v else f j

/-- `PC += 2` on the 16-bit program counter. -/
def pc2 (p : Nat) : Nat := (p + 2) % 65536

/-- The `case 0x0:` sub-switch of `emulate_cycle`: `00E0` clears the
display, `00EE` pops the stack into PC and then adds 2, anything else
prints an error and falls through without touching PC. -/
def exec0 (op : Nat) (s : Chip8) : CycleResult :=
  let nnn := op &&& 0xFFF
  if nnn = 0xE0 then
    ⟨{ s with display := fun i => if i < 64 * 32 then 0 else s.display i,
              PC := pc2 s.PC }, false, false, false⟩
  else if nnn = 0xEE then
    ⟨{ s with PC := pc2 (s.stack s.stack_idx),
              stack_idx := (s.stack_idx + 255) % 256 }, false, false, false⟩
  else
    ⟨s, false, true, false⟩

/-- The `case 0x8:` sub-switch of `emulate_cycle` (register arithmetic,
logic and shifts), statement by statement. -/
def exec8 (op : Nat) (s : Chip8) : CycleResult :=
  let X := (op &&& 0xF00) >>> 8
  let Y := (op &&& 0xF0) >>> 4
  let sub := op &&& 0xF
  if sub = 0 then
    ⟨{ s with V := upd s.V X (s.V Y), PC := pc2 s.PC }, false, false, false⟩
  else if sub = 1 then
    ⟨{ s with V := upd (upd s.V X (s.V X ||| s.V Y)) 15 0,
              PC := pc2 s.PC }, false, false, false⟩
  else if sub = 2 then
    ⟨{ s with V := upd (upd s.V X (s.V X &&& s.V Y)) 15 0,
              PC := pc2 s.PC }, false, false, false⟩
  else if sub = 3 then
    ⟨{ s with V := upd (upd s.V X (s.V X ^^^ s.V Y)) 15 0,
              PC := pc2 s.PC }, false, false, false⟩
  else if sub = 4 then
    let sum := s.V X + s.V Y
    let vA := upd s.V 15 (if sum > 255 then 1 else 0)
    let vB := upd vA X (sum &&& 0xFF)
    let vC := if X = 15 then upd vB 15 (if sum > 255 then 1 else 0) else vB
    ⟨{ s with V := vC, PC := pc2 s.PC }, false, false, false⟩
  else if sub = 5 then
    let diff := (s.V X + 256 - s.V Y) % 256
    let vA := upd s.V 15 (if s.V X ≥ s.V Y then 1 else 0)
    let vB := if X ≠ 15 then upd vA X diff else vA
    ⟨{ s with V := vB, PC := pc2 s.PC }, false, false, false⟩
  else if sub = 6 then
    let v1 := upd s.V X (s.V Y)
    let sb := v1 X &&& 1
    let v2 := upd v1 X (v1 X / 2)
    let v3 := upd v2 15 (if sb ≠ 0 then 1 else 0)
    ⟨{ s with V := v3, PC := pc2 s.PC }, false, false, false⟩
  else if sub = 7 then
    let diff := (s.V Y + 256 - s.V X) % 256
    let vA := upd s.V 15 (if s.V Y ≥ s.V X then 1 else 0)
    let vB := if X ≠ 15 then upd vA X diff else vA
    ⟨{ s with V := vB, PC := pc2 s.PC }, false, false, false⟩
  else if sub = 0xE then
    let v1 := upd s.V X (s.V Y)
    let sb := v1 X &&& 0x80
    let v2 := upd v1 X ((v1 X * 2) % 256)
    let v3 := upd v2 15 (if sb ≠ 0 then 1 else 0)
    ⟨{ s with V := v3, PC := pc2 s.PC }, false, false, false⟩
  else
    ⟨s, false, true, false⟩

/-- Innermost body of the `DXYN` loops: one sprite bit.  A set bit is
skipped when `nth_bit + x_coord >= SCREEN_WIDTH`; otherwise the collision
flag is raised if the destination pixel reads 1, and the pixel is XOR-ed
with 1. -/
def drawBitStep (sprite x0 y : Nat) (dv : (Nat → Nat) × Nat) (b : Nat) :
    (Nat → Nat) × Nat :=
  if sprite &&& (0x80 >>> b) ≠ 0 then
    if b + x0 ≥ 64 then dv
    else
      let idx := x0 + b + y * 64
      (upd dv.1 idx (dv.1 idx ^^^ 1), if dv.1 idx = 1 then 1 else dv.2)
  else dv

/-- One iteration of the outer `DXYN` loop: the sprite byte is read from
memory, the whole row is skipped when `nth_byte + y_coord >= SCREEN_HEIGHT`,
otherwise the 8 bits are processed most-significant first. -/
def drawRowStep (mem : Nat → Nat) (Iv x0 y0 : Nat) (dv : (Nat → Nat) × Nat)
    (r : Nat) : (Nat → Nat) × Nat :=
  if r + y0 ≥ 32 then dv
  else (List.range 8).foldl (drawBitStep (mem (Iv + r)) x0 (y0 + r)) dv

/-- The `DXYN` nested loops, starting from collision flag 0. -/
def drawSprite (mem : Nat → Nat) (Iv x0 y0 n : Nat) (disp : Nat → Nat) :
    (Nat → Nat) × Nat :=
  (List.range n).foldl (drawRowStep mem Iv x0 y0) (disp, 0)

/-- The `case 0xD:` branch of `emulate_cycle`: coordinates are reduced
modulo the screen size, `V[0xF]` is cleared, the sprite is blitted, the
draw flag is raised and the function returns `true`. -/
def execD (op : Nat) (s : Chip8) : CycleResult :=
  let X := (op &&& 0xF00) >>> 8
  let Y := (op &&& 0xF0) >>> 4
  let n := op &&& 0xF
  let x0 := s.V X % 64
  let y0 := s.V Y % 32
  let dv := drawSprite s.memory s.I x0 y0 n s.display
  ⟨{ s with display := dv.1, V := upd s.V 15 dv.2, draw_flag := 1,
            PC := pc2 s.PC }, true, false, false⟩

/-- The `case 0xE:` sub-switch: skip on key pressed / not pressed; an
unknown low byte prints an error and continues. -/
def execE (op : Nat) (s : Chip8) : CycleResult :=
  let X := (op &&& 0xF00) >>> 8
  let sub := op &&& 0xFF
  if sub = 0x9E then
    ⟨{ s with PC := if s.keypad (s.V X) ≠ 0 then pc2 (pc2 s.PC)
                    else pc2 s.PC }, false, false, false⟩
  else if sub = 0xA1 then
    ⟨{ s with PC := if s.keypad (s.V X) = 0 then pc2 (pc2 s.PC)
                    else pc2 s.PC }, false, false, false⟩
  else
    ⟨s, false, true, false⟩

/-- First pressed key in keypad order 0..15, as scanned by the `FX0A`
loop. -/
def firstKey (kp : Nat → Nat) : Option Nat :=
  (List.range 16).find? (fun i => kp i != 0)

/-- The loop bodies of `FX55` (`memory[I + i] = V[i]` for `i = 0..X`). -/
def fxStore (mem V : Nat → Nat) (Iv : Nat) : Nat → (Nat → Nat)
  | 0 => upd mem Iv (V 0)
  | i + 1 => upd (fxStore mem V Iv i) (Iv + (i + 1)) (V (i + 1))

/-- The loop bodies of `FX65` (`V[i] = memory[I + i]` for `i = 0..X`). -/
def fxLoad (mem V : Nat → Nat) (Iv : Nat) : Nat → (Nat → Nat)
  | 0 => upd V 0 (mem Iv)
  | i + 1 => upd (fxLoad mem V Iv i) (i + 1) (mem (Iv + (i + 1)))

/-- The `case 0xF:` sub-switch.  Note the C switch has no `default:`
here: an unknown low byte falls through silently.  `FX55` and `FX65` both
end with `I += 15`. -/
def execF (op : Nat) (s : Chip8) : CycleResult :=
  let X := (op &&& 0xF00) >>> 8
  let sub := op &&& 0xFF
  if sub = 0x07 then
    ⟨{ s with V := upd s.V X s.delay_timer, PC := pc2 s.PC },
      false, false, false⟩
  else if sub = 0x0A then
    let s1 := if s.key_found ∧ s.key_pressed ≠ 255 ∧ s.keypad s.key_pressed = 0
      then { s with key_found := false, key_pressed := 255, PC := pc2 s.PC }
      else s
    match firstKey s1.keypad with
    | some i =>
        ⟨{ s1 with V := upd s1.V X i, key_found := true, key_pressed := i },
          false, false, false⟩
    | none => ⟨s1, false, false, false⟩
  else if sub = 0x15 then
    ⟨{ s with delay_timer := s.V X, PC := pc2 s.PC }, false, false, false⟩
  else if sub = 0x18 then
    ⟨{ s with sound_timer := s.V X, PC := pc2 s.PC }, false, false, false⟩
  else if sub = 0x1E then
    ⟨{ s with I := (s.I + s.V X) % 65536, PC := pc2 s.PC },
      false, false, false⟩
  else if sub = 0x29 then
    ⟨{ s with I := (s.V X * 5) % 65536, PC := pc2 s.PC }, false, false, false⟩
  else if sub = 0x33 then
    let vx := s.V X
    let mem3 := upd (upd (upd s.memory s.I (vx / 100))
      (s.I + 1) (vx % 100 / 10)) (s.I + 2) (vx % 10)
    ⟨{ s with memory := mem3, PC := pc2 s.PC }, false, false, false⟩
  else if sub = 0x55 then
    ⟨{ s with memory := fxStore s.memory s.V s.I X,
              I := (s.I + 15) % 65536, PC := pc2 s.PC }, false, false, false⟩
  else if sub = 0x65 then
    ⟨{ s with V := fxLoad s.memory s.V s.I X,
              I := (s.I + 15) % 65536, PC := pc2 s.PC }, false, false, false⟩
  else
    ⟨s, false, false, false⟩

/-- The decode/execute switch of `emulate_cycle`, for an already fetched
16-bit word `op`.  The final `else` is the `default:` branch whose
`error(...)` call aborts the process; it is unreachable because the top
nibble is always in `0..15`. -/
def execOp (op : Nat) (s : Chip8) : CycleResult :=
  let t := (op &&& 0xF000) >>> 12
  let X := (op &&& 0xF00) >>> 8
  let Y := (op &&& 0xF0) >>> 4
  let nnn := op &&& 0xFFF
  if t = 0 then exec0 op s
  else if t = 1 then
    ⟨{ s with PC := nnn }, false, false, false⟩
  else if t = 2 then
    ⟨{ s with stack := upd s.stack ((s.stack_idx + 1) % 256) (s.PC % 65536),
              stack_idx := (s.stack_idx + 1) % 256,
              PC := nnn }, false, false, false⟩
  else if t = 3 then
    ⟨{ s with PC := if s.V X = (nnn &&& 0xFF) then pc2 (pc2 s.PC)
                    else pc2 s.PC }, false, false, false⟩
  else if t = 4 then
    ⟨{ s with PC := if s.V X ≠ (nnn &&& 0xFF) then pc2 (pc2 s.PC)
                    else pc2 s.PC }, false, false, false⟩
  else if t = 5 then
    ⟨{ s with PC := if s.V X = s.V Y then pc2 (pc2 s.PC)
                    else pc2 s.PC }, false, false, false⟩
  else if t = 6 then
    ⟨{ s with V := upd s.V X (nnn &&& 0xFF), PC := pc2 s.PC },
      false, false, false⟩
  else if t = 7 then
    ⟨{ s with V := upd s.V X ((s.V X + (nnn &&& 0xFF)) % 256),
              PC := pc2 s.PC }, false, false, false⟩
  else if t = 8 then exec8 op s
  else if t = 9 then
    ⟨{ s with PC := if (op &&& 0xF) = 0 ∧ s.V X ≠ s.V Y then pc2 (pc2 s.PC)
                    else pc2 s.PC }, false, false, false⟩
  else if t = 10 then
    ⟨{ s with I := nnn, PC := pc2 s.PC }, false, false, false⟩
  else if t = 11 then
    ⟨{ s with PC := (s.V 0 + nnn) % 65536 }, false, false, false⟩
  else if t = 12 then
    ⟨{ s with V := upd s.V X ((s.rnd % 255) &&& (nnn &&& 0xFF)),
              PC := pc2 s.PC }, false, false, false⟩
  else if t = 13 then execD op s
  else if t = 14 then execE op s
  else if t = 15 then execF op s
  else ⟨s, false, false, true⟩

/-- The fetch of `emulate_cycle`:
`op = memory[PC] << 8 | memory[PC + 1]`. -/
def fetchOp (s : Chip8) : Nat :=
  (s.memory s.PC) <<< 8 ||| s.memory (s.PC + 1)

/-- One full `emulate_cycle` call: fetch, decode, execute. -/
def emulateCycle (s : Chip8) : CycleResult :=
  execOp (fetchOp s) s

/-- The instruction batch of one scheduler tick in `main`: up to `k`
`emulate_cycle` calls, stopping at the first one that returns `true`. -/
def runBatch : Nat → Chip8 → Chip8
  | 0, s => s
  | k + 1, s =>
      let r := emulateCycle s
      if r.drew then r.st else runBatch k r.st

/-- Number of `emulate_cycle` calls the batch `runBatch k` performs. -/
def batchCount : Nat → Chip8 → Nat
  | 0, _ => 0
  | k + 1, s =>
      let r := emulateCycle s
      if r.drew then 1 else 1 + batchCount k r.st

/-- State after `k` unconditional `emulate_cycle` steps. -/
def cyclesIter : Nat → Chip8 → Chip8
  | 0, s => s
  | k + 1, s => cyclesIter k (emulateCycle s).st

/-- Body of the scheduler loop in `main`: a batch of at most 16 cycles,
then the draw-flag flush, then the two guarded timer decrements. -/
def tick (s : Chip8) : Chip8 :=
  let s1 := runBatch 16 s
  let s2 := if s1.draw_flag ≠ 0 then { s1 with draw_flag := 0 } else s1
  let s3 := if s2.delay_timer > 0
    then { s2 with delay_timer := s2.delay_timer - 1 } else s2
  if s3.sound_timer > 0
    then { s3 with sound_timer := s3.sound_timer - 1 } else s3

/-- A zeroed state with `PC = 0x200` (the post-`init_cpu` values of the
globals, fonts aside), used as the base point for concrete test states. -/
def st0 : Chip8 where
  memory := fun _ => 0
  V := fun _ => 0
  I := 0
  PC := 0x200
  stack := fun _ => 0
  stack_idx := 0
  keypad := fun _ => 0
  display := fun _ => 0
  delay_timer := 0
  sound_timer := 0
  draw_flag := 0
  key_found := false
  key_pressed := 255
  rnd := 0

/-- C1: the claim says `FX55`/`FX65` leave the index register unchanged,
but the code ends both handlers with `I += 15`: executed with `I = 0x300`,
both leave `I = 0x30F`. -/
theorem fx55_fx65_mutate_index :
    (execOp 0xF055 { st0 with I := 0x300 }).st.I = 0x30F ∧
    (execOp 0xF065 { st0 with I := 0x300 }).st.I = 0x30F ∧
    (0x30F : Nat) ≠ 0x300 := by decide

/-- A state whose ROM bytes at `PC = 0x200` spell the word `0xF0FF`,
which matches no instruction. -/
def stBadOp : Chip8 :=
  { st0 with memory := fun a => if a = 0x200 then 0xF0
      else if a = 0x201 then 0xFF else 0 }

/-- C2: fetching the unrecognized word `0xF0FF` is not fatal: the cycle
returns normally without reaching the `error(...)` call, prints no
`[ERROR]` line at all (the `0xF` sub-switch has no `default:`), leaves PC
in place and lets dispatch continue; the unknown `0x8XY8` word likewise
only logs and continues. -/
theorem unknown_opcode_continues :
    fetchOp stBadOp = 0xF0FF ∧
    (emulateCycle stBadOp).fatal = false ∧
    (emulateCycle stBadOp).errLogged = false ∧
    (emulateCycle stBadOp).st.PC = 0x200 ∧
    (emulateCycle stBadOp).drew = false ∧
    (execOp 0x8008 st0).fatal = false ∧
    (execOp 0x8008 st0).errLogged = true ∧
    (execOp 0x8008 st0).st.PC = 0x200 := by decide

/-- C3 counterexample: at `PC = 0x200`, `2345` pushes `0x200` (the PC of
the call itself), not `0x202`; and `00EE` with `0x400` on top of the stack
sets `PC = 0x402`, i.e. it does add 2 after the pop. -/
theorem call_push_counterexample :
    (execOp 0x2345 st0).st.stack 1 = 0x200 ∧ st0.PC + 2 = 0x202 ∧
    (0x200 : Nat) ≠ 0x202 ∧
    (execOp 0x00EE { st0 with
      stack := fun i => if i = 0 then 0x400 else 0 }).st.PC = 0x402 ∧
    (0x402 : Nat) ≠ 0x400 := by decide

/-- Shared description of the `2NNN` branch: push the current PC at
`stack[stack_idx + 1]`, increment the stack pointer, jump to NNN. -/
lemma exec2_spec (s : Chip8) (op : Nat) (h : (op &&& 0xF000) >>> 12 = 2) :
    (execOp op s).st =
      { s with stack := upd s.stack ((s.stack_idx + 1) % 256) (s.PC % 65536),
               stack_idx := (s.stack_idx + 1) % 256,
               PC := op &&& 0xFFF } := by
  simp [execOp, h]

/-- Shared description of the `00EE` branch: PC becomes top-of-stack plus
2, and the 8-bit stack pointer is decremented with wraparound. -/
lemma execEE_spec (s : Chip8) :
    (execOp 0x00EE s).st =
      { s with PC := (s.stack s.stack_idx + 2) % 65536,
               stack_idx := (s.stack_idx + 255) % 256 } := rfl

/-- C3 amended: `2NNN` pushes the current PC (the address of the call
instruction, not PC+2) into `stack[stack_idx + 1]`, increments the stack
pointer and jumps to NNN; `00EE` sets PC to the popped value plus 2 and
decrements the stack pointer (with 8-bit wraparound). -/
theorem call_ret_convention :
    (∀ (s : Chip8) (op : Nat), (op &&& 0xF000) >>> 12 = 2 →
      (execOp op s).st.stack ((s.stack_idx + 1) % 256) = s.PC % 65536 ∧
      (execOp op s).st.stack_idx = (s.stack_idx + 1) % 256 ∧
      (execOp op s).st.PC = (op &&& 0xFFF)) ∧
    (∀ s : Chip8,
      (execOp 0x00EE s).st.PC = (s.stack s.stack_idx + 2) % 65536 ∧
      (execOp 0x00EE s).st.stack_idx = (s.stack_idx + 255) % 256) := by
  constructor
  · intro s op h
    rw [exec2_spec s op h]
    simp [upd]
  · intro s
    rw [execEE_spec s]
    exact ⟨rfl, rfl⟩

/-- Witness for the amended C3 theorem at `op = 0x2345`, `s = st0`. -/
theorem call_ret_convention_witness :
    ((0x2345 : Nat) &&& 0xF000) >>> 12 = 2 ∧
    (execOp 0x2345 st0).st.stack ((st0.stack_idx + 1) % 256)
      = st0.PC % 65536 :=
  ⟨by decide, (call_ret_convention.1 st0 0x2345 (by decide)).1⟩

/-- C4: with free stack capacity, `2NNN` followed by `00EE` (executed at
address NNN) brings PC to the address right after the call and restores
the stack depth. -/
theorem call_ret_roundtrip (s : Chip8) (op : Nat)
    (h2 : (op &&& 0xF000) >>> 12 = 2)
    (hcap : s.stack_idx + 1 < 16) (hpc : s.PC + 2 < 65536) :
    (execOp op s).st.PC = (op &&& 0xFFF) ∧
    (execOp 0x00EE (execOp op s).st).st.PC = s.PC + 2 ∧
    (execOp 0x00EE (execOp op s).st).st.stack_idx = s.stack_idx := by
  rw [exec2_spec s op h2, execEE_spec]
  refine ⟨rfl, ?_, ?_⟩ <;> simp [upd] <;> omega

/-- Witness for C4 at `op = 0x2345`, `s = st0`. -/
theorem call_ret_roundtrip_witness :
    (((0x2345 : Nat) &&& 0xF000) >>> 12 = 2 ∧
      st0.stack_idx + 1 < 16 ∧ st0.PC + 2 < 65536) ∧
    (execOp 0x00EE (execOp 0x2345 st0).st).st.PC = st0.PC + 2 :=
  ⟨⟨by decide, by decide, by decide⟩,
    (call_ret_roundtrip st0 0x2345 (by decide) (by decide) (by decide)).2.1⟩

/-- C5: stack underflow and overflow are unchecked: `00EE` on an empty
stack wraps the 8-bit stack pointer to 255 and continues non-fatally, and
`2NNN` with `stack_idx = 15` writes `stack[16]`, one past the end of the
16-entry array, again without any error. -/
theorem stack_over_underflow_unchecked :
    (execOp 0x00EE st0).fatal = false ∧
    (execOp 0x00EE st0).errLogged = false ∧
    (execOp 0x00EE st0).st.stack_idx = 255 ∧
    (execOp 0x2345 { st0 with stack_idx := 15 }).fatal = false ∧
    (execOp 0x2345 { st0 with stack_idx := 15 }).errLogged = false ∧
    (execOp 0x2345 { st0 with stack_idx := 15 }).st.stack_idx = 16 ∧
    (execOp 0x2345 { st0 with stack_idx := 15 }).st.stack 16 = 0x200 := by
  decide

/-- A state with the index register at the last valid address 4095 and
`V0 = 100`. -/
def stEdgeI : Chip8 :=
  { st0 with I := 4095, V := fun i => if i = 0 then 100 else 0 }

/-- C6: memory accesses beyond address 4095 are unchecked: `FX1E` raises
`I` from 4095 to 4195 and the following `FX33` (with `V0 = 100`) writes
its BCD digits at addresses 4195..4197, outside the 4096-byte array,
with no fatal error on either instruction. -/
theorem oob_memory_access_unchecked :
    (execOp 0xF01E stEdgeI).fatal = false ∧
    (execOp 0xF01E stEdgeI).st.I = 4195 ∧
    (execOp 0xF033 (execOp 0xF01E stEdgeI).st).fatal = false ∧
    (execOp 0xF033 (execOp 0xF01E stEdgeI).st).errLogged = false ∧
    (execOp 0xF033 (execOp 0xF01E stEdgeI).st).st.memory 4195 = 1 ∧
    (execOp 0xF033 (execOp 0xF01E stEdgeI).st).st.memory 4196 = 0 ∧
    (execOp 0xF033 (execOp 0xF01E stEdgeI).st).st.memory 4197 = 0 ∧
    (4095 : Nat) < 4195 := by decide

/-- The pixels `DXYN` touches: sprite row `r` and bit `b` are in range,
the bit is set, and neither coordinate is clipped. -/
@[reducible]
def spriteHits (mem : Nat → Nat) (Iv x0 y0 n idx : Nat) : Prop :=
  ∃ r, r < n ∧ r + y0 < 32 ∧ ∃ b, b < 8 ∧
    mem (Iv + r) &&& (0x80 >>> b) ≠ 0 ∧ b + x0 < 64 ∧
    idx = x0 + b + (y0 + r) * 64

/-- Some unclipped set sprite bit lands on a pixel of `d` that reads 1. -/
@[reducible]
def spriteCollides (mem : Nat → Nat) (Iv x0 y0 n : Nat) (d : Nat → Nat) :
    Prop :=
  ∃ r, r < n ∧ r + y0 < 32 ∧ ∃ b, b < 8 ∧
    mem (Iv + r) &&& (0x80 >>> b) ≠ 0 ∧ b + x0 < 64 ∧
    d (x0 + b + (y0 + r) * 64) = 1

/-- Display component of the inner bit loop: a pixel is XOR-ed with 1
exactly when some set, unclipped bit of the row lands on it. -/
lemma bits_disp (sprite x0 y : Nat) :
    ∀ (l : List Nat), l.Nodup → ∀ (d : Nat → Nat) (v : Nat) (idx : Nat),
      ((∃ b ∈ l, sprite &&& (0x80 >>> b) ≠ 0 ∧ b + x0 < 64 ∧
          idx = x0 + b + y * 64) →
        (l.foldl (drawBitStep sprite x0 y) (d, v)).1 idx = d idx ^^^ 1) ∧
      ((¬ ∃ b ∈ l, sprite &&& (0x80 >>> b) ≠ 0 ∧ b + x0 < 64 ∧
          idx = x0 + b + y * 64) →
        (l.foldl (drawBitStep sprite x0 y) (d, v)).1 idx = d idx) := by
  intro l
  induction l with
  | nil =>
      intro _ d v idx
      constructor
      · rintro ⟨b, hb, -⟩
        exact absurd hb (List.not_mem_nil b)
      · intro _
        rfl
  | cons a t ih =>
      intro hnd d v idx
      obtain ⟨hat, hnd'⟩ := List.nodup_cons.mp hnd
      by_cases hset : sprite &&& (0x80 >>> a) ≠ 0
      · by_cases hclip : a + x0 ≥ 64
        · have hstep : drawBitStep sprite x0 y (d, v) a = (d, v) := by
            simp [drawBitStep, hset, hclip]
          rw [List.foldl_cons, hstep]
          constructor
          · rintro ⟨b, hb, hbset, hbin, hbidx⟩
            rcases List.mem_cons.mp hb with rfl | hbt
            · omega
            · exact (ih hnd' d v idx).1 ⟨b, hbt, hbset, hbin, hbidx⟩
          · intro hno
            refine (ih hnd' d v idx).2 ?_
            rintro ⟨b, hbt, h3⟩
            exact hno ⟨b, List.mem_cons_of_mem a hbt, h3⟩
        · have hclip' : a + x0 < 64 := by omega
          have hstep : drawBitStep sprite x0 y (d, v) a
              = (upd d (x0 + a + y * 64) (d (x0 + a + y * 64) ^^^ 1),
                 if d (x0 + a + y * 64) = 1 then 1 else v) := by
            simp [drawBitStep, hset, hclip]
          rw [List.foldl_cons, hstep]
          constructor
          · rintro ⟨b, hb, hbset, hbin, hbidx⟩
            rcases List.mem_cons.mp hb with rfl | hbt
            · have hno : ¬ ∃ b' ∈ t, sprite &&& (0x80 >>> b') ≠ 0 ∧
                  b' + x0 < 64 ∧ idx = x0 + b' + y * 64 := by
                rintro ⟨b', hb't, -, -, hb'idx⟩
                have : b' = b := by omega
                exact hat (this ▸ hb't)
              rw [(ih hnd' _ _ idx).2 hno]
              simp [upd, hbidx]
            · have hba : b ≠ a := fun h => hat (h ▸ hbt)
              have hne : idx ≠ x0 + a + y * 64 := by omega
              rw [(ih hnd' _ _ idx).1 ⟨b, hbt, hbset, hbin, hbidx⟩]
              simp [upd, hne]
          · intro hno
            have hnt : ¬ ∃ b ∈ t, sprite &&& (0x80 >>> b) ≠ 0 ∧
                b + x0 < 64 ∧ idx = x0 + b + y * 64 := by
              rintro ⟨b, hbt, h3⟩
              exact hno ⟨b, List.mem_cons_of_mem a hbt, h3⟩
            have hnidx : idx ≠ x0 + a + y * 64 := by
              intro h
              exact hno ⟨a, List.mem_cons_self a t, hset, hclip', h⟩
            rw [(ih hnd' _ _ idx).2 hnt]
            simp [upd, hnidx]
      · have hstep : drawBitStep sprite x0 y (d, v) a = (d, v) := by
          simp [drawBitStep, hset]
        rw [List.foldl_cons, hstep]
        constructor
        · rintro ⟨b, hb, hbset, hbin, hbidx⟩
          rcases List.mem_cons.mp hb with rfl | hbt
          · exact absurd hbset hset
          · exact (ih hnd' d v idx).1 ⟨b, hbt, hbset, hbin, hbidx⟩
        · intro hno
          refine (ih hnd' d v idx).2 ?_
          rintro ⟨b, hbt, h3⟩
          exact hno ⟨b, List.mem_cons_of_mem a hbt, h3⟩

/-- Collision component of the inner bit loop: the flag is forced to 1
exactly when some set, unclipped bit of the row lands on a pixel that
currently reads 1; otherwise it keeps its incoming value. -/
lemma bits_vf (sprite x0 y : Nat) :
    ∀ (l : List Nat), l.Nodup → ∀ (d : Nat → Nat) (v : Nat),
      ((∃ b ∈ l, sprite &&& (0x80 >>> b) ≠ 0 ∧ b + x0 < 64 ∧
          d (x0 + b + y * 64) = 1) →
        (l.foldl (drawBitStep sprite x0 y) (d, v)).2 = 1) ∧
      ((¬ ∃ b ∈ l, sprite &&& (0x80 >>> b) ≠ 0 ∧ b + x0 < 64 ∧
          d (x0 + b + y * 64) = 1) →
        (l.foldl (drawBitStep sprite x0 y) (d, v)).2 = v) := by
  intro l
  induction l with
  | nil =>
      intro _ d v
      constructor
      · rintro ⟨b, hb, -⟩
        exact absurd hb (List.not_mem_nil b)
      · intro _
        rfl
  | cons a t ih =>
      intro hnd d v
      obtain ⟨hat, hnd'⟩ := List.nodup_cons.mp hnd
      by_cases hset : sprite &&& (0x80 >>> a) ≠ 0
      · by_cases hclip : a + x0 ≥ 64
        · have hstep : drawBitStep sprite x0 y (d, v) a = (d, v) := by
            simp [drawBitStep, hset, hclip]
          rw [List.foldl_cons, hstep]
          constructor
          · rintro ⟨b, hb, hbset, hbin, hbd⟩
            rcases List.mem_cons.mp hb with rfl | hbt
            · omega
            · exact (ih hnd' d v).1 ⟨b, hbt, hbset, hbin, hbd⟩
          · intro hno
            refine (ih hnd' d v).2 ?_
            rintro ⟨b, hbt, h3⟩
            exact hno ⟨b, List.mem_cons_of_mem a hbt, h3⟩
        · have hclip' : a + x0 < 64 := by omega
          have hstep : drawBitStep sprite x0 y (d, v) a
              = (upd d (x0 + a + y * 64) (d (x0 + a + y * 64) ^^^ 1),
                 if d (x0 + a + y * 64) = 1 then 1 else v) := by
            simp [drawBitStep, hset, hclip]
          rw [List.foldl_cons, hstep]
          have hagree : ∀ b, b ≠ a →
              upd d (x0 + a + y * 64) (d (x0 + a + y * 64) ^^^ 1)
                (x0 + b + y * 64) = d (x0 + b + y * 64) := by
            intro b hba
            have hne : x0 + b + y * 64 ≠ x0 + a + y * 64 := by omega
            simp [upd, hne]
          constructor
          · rintro ⟨b, hb, hbset, hbin, hbd⟩
            rcases List.mem_cons.mp hb with rfl | hbt
            · by_cases hrest : ∃ b' ∈ t, sprite &&& (0x80 >>> b') ≠ 0 ∧
                  b' + x0 < 64 ∧
                  upd d (x0 + b + y * 64) (d (x0 + b + y * 64) ^^^ 1)
                    (x0 + b' + y * 64) = 1
              · exact (ih hnd' _ _).1 hrest
              · rw [(ih hnd' _ _).2 hrest]
                simp [hbd]
            · refine (ih hnd' _ _).1 ⟨b, hbt, hbset, hbin, ?_⟩
              rw [hagree b (fun h => hat (h ▸ hbt))]
              exact hbd
          · intro hno
            have hnA : ¬ d (x0 + a + y * 64) = 1 := by
              intro h
              exact hno ⟨a, List.mem_cons_self a t, hset, hclip', h⟩
            have hnt : ¬ ∃ b ∈ t, sprite &&& (0x80 >>> b) ≠ 0 ∧
                b + x0 < 64 ∧
                upd d (x0 + a + y * 64) (d (x0 + a + y * 64) ^^^ 1)
                  (x0 + b + y * 64) = 1 := by
              rintro ⟨b, hbt, hbset, hbin, hbd⟩
              rw [hagree b (fun h => hat (h ▸ hbt))] at hbd
              exact hno ⟨b, List.mem_cons_of_mem a hbt, hbset, hbin, hbd⟩
            rw [(ih hnd' _ _).2 hnt]
            simp [hnA]
      · have hstep : drawBitStep sprite x0 y (d, v) a = (d, v) := by
          simp [drawBitStep, hset]
        rw [List.foldl_cons, hstep]
        constructor
        · rintro ⟨b, hb, hbset, hbin, hbd⟩
          rcases List.mem_cons.mp hb with rfl | hbt
          · exact absurd hbset hset
          · exact (ih hnd' d v).1 ⟨b, hbt, hbset, hbin, hbd⟩
        · intro hno
          refine (ih hnd' d v).2 ?_
          rintro ⟨b, hbt, h3⟩
          exact hno ⟨b, List.mem_cons_of_mem a hbt, h3⟩

/-- Display component of the outer row loop: a pixel is XOR-ed with 1
exactly when some unclipped row of the sprite has a set, unclipped bit
landing on it. -/
lemma rows_disp (mem : Nat → Nat) (Iv x0 y0 : Nat) :
    ∀ (l : List Nat), l.Nodup → ∀ (d : Nat → Nat) (v : Nat) (idx : Nat),
      ((∃ r ∈ l, r + y0 < 32 ∧ ∃ b, b < 8 ∧
          mem (Iv + r) &&& (0x80 >>> b) ≠ 0 ∧ b + x0 < 64 ∧
          idx = x0 + b + (y0 + r) * 64) →
        (l.foldl (drawRowStep mem Iv x0 y0) (d, v)).1 idx = d idx ^^^ 1) ∧
      ((¬ ∃ r ∈ l, r + y0 < 32 ∧ ∃ b, b < 8 ∧
          mem (Iv + r) &&& (0x80 >>> b) ≠ 0 ∧ b + x0 < 64 ∧
          idx = x0 + b + (y0 + r) * 64) →
        (l.foldl (drawRowStep mem Iv x0 y0) (d, v)).1 idx = d idx) := by
  intro l
  induction l with
  | nil =>
      intro _ d v idx
      constructor
      · rintro ⟨r, hr, -⟩
        exact absurd hr (List.not_mem_nil r)
      · intro _
        rfl
  | cons a t ih =>
      intro hnd d v idx
      obtain ⟨hat, hnd'⟩ := List.nodup_cons.mp hnd
      by_cases hclip : a + y0 ≥ 32
      · have hstep : drawRowStep mem Iv x0 y0 (d, v) a = (d, v) := by
          simp [drawRowStep, hclip]
        rw [List.foldl_cons, hstep]
        constructor
        · rintro ⟨r, hr, hry, h3⟩
          rcases List.mem_cons.mp hr with heq | hrt
          · subst heq
            omega
          · exact (ih hnd' d v idx).1 ⟨r, hrt, hry, h3⟩
        · intro hno
          refine (ih hnd' d v idx).2 ?_
          rintro ⟨r, hrt, h3⟩
          exact hno ⟨r, List.mem_cons_of_mem a hrt, h3⟩
      · have hclip' : a + y0 < 32 := by omega
        have hstep : drawRowStep mem Iv x0 y0 (d, v) a
            = (List.range 8).foldl
                (drawBitStep (mem (Iv + a)) x0 (y0 + a)) (d, v) := by
          simp [drawRowStep, hclip]
        rw [List.foldl_cons, hstep]
        generalize hD : (List.range 8).foldl
          (drawBitStep (mem (Iv + a)) x0 (y0 + a)) (d, v) = D
        obtain ⟨d1, v1⟩ := D
        have hd1hit : ∀ p, (∃ b ∈ List.range 8,
            mem (Iv + a) &&& (0x80 >>> b) ≠ 0 ∧ b + x0 < 64 ∧
            p = x0 + b + (y0 + a) * 64) → d1 p = d p ^^^ 1 := by
          intro p hp
          have h := (bits_disp (mem (Iv + a)) x0 (y0 + a) (List.range 8)
            (List.nodup_range 8) d v p).1 hp
          rw [hD] at h
          exact h
        have hd1miss : ∀ p, (¬ ∃ b ∈ List.range 8,
            mem (Iv + a) &&& (0x80 >>> b) ≠ 0 ∧ b + x0 < 64 ∧
            p = x0 + b + (y0 + a) * 64) → d1 p = d p := by
          intro p hp
          have h := (bits_disp (mem (Iv + a)) x0 (y0 + a) (List.range 8)
            (List.nodup_range 8) d v p).2 hp
          rw [hD] at h
          exact h
        constructor
        · rintro ⟨r, hr, hry, b, hb8, hbset, hbin, hbidx⟩
          rcases List.mem_cons.mp hr with heq | hrt
          · subst heq
            have hnot : ¬ ∃ r' ∈ t, r' + y0 < 32 ∧ ∃ b', b' < 8 ∧
                mem (Iv + r') &&& (0x80 >>> b') ≠ 0 ∧ b' + x0 < 64 ∧
                idx = x0 + b' + (y0 + r') * 64 := by
              rintro ⟨r', hr't, hr'y, b', hb'8, hb'set, hb'in, hb'idx⟩
              have : r' = r := by omega
              exact hat (this ▸ hr't)
            rw [(ih hnd' d1 v1 idx).2 hnot]
            exact hd1hit idx ⟨b, List.mem_range.mpr hb8, hbset, hbin, hbidx⟩
          · have hra : r ≠ a := fun h => hat (h ▸ hrt)
            have hmiss : ¬ ∃ b' ∈ List.range 8,
                mem (Iv + a) &&& (0x80 >>> b') ≠ 0 ∧ b' + x0 < 64 ∧
                idx = x0 + b' + (y0 + a) * 64 := by
              rintro ⟨b', hb'mem, hb'set, hb'in, hb'idx⟩
              omega
            rw [(ih hnd' d1 v1 idx).1 ⟨r, hrt, hry, b, hb8, hbset, hbin, hbidx⟩,
              hd1miss idx hmiss]
        · intro hno
          have hmiss : ¬ ∃ b' ∈ List.range 8,
              mem (Iv + a) &&& (0x80 >>> b') ≠ 0 ∧ b' + x0 < 64 ∧
              idx = x0 + b' + (y0 + a) * 64 := by
            rintro ⟨b', hb'mem, hb'set, hb'in, hb'idx⟩
            exact hno ⟨a, List.mem_cons_self a t, hclip', b',
              List.mem_range.mp hb'mem, hb'set, hb'in, hb'idx⟩
          have hnt : ¬ ∃ r ∈ t, r + y0 < 32 ∧ ∃ b, b < 8 ∧
              mem (Iv + r) &&& (0x80 >>> b) ≠ 0 ∧ b + x0 < 64 ∧
              idx = x0 + b + (y0 + r) * 64 := by
            rintro ⟨r, hrt, h3⟩
            exact hno ⟨r, List.mem_cons_of_mem a hrt, h3⟩
          rw [(ih hnd' d1 v1 idx).2 hnt, hd1miss idx hmiss]

/-- Collision component of the outer row loop: starting from flag value
`v`, the final flag is 1 when some unclipped set bit lands on a pixel of
`d` that reads 1, and keeps the value `v` otherwise. -/
lemma rows_vf (mem : Nat → Nat) (Iv x0 y0 : Nat) :
    ∀ (l : List Nat), l.Nodup → ∀ (d : Nat → Nat) (v : Nat),
      ((∃ r ∈ l, r + y0 < 32 ∧ ∃ b, b < 8 ∧
          mem (Iv + r) &&& (0x80 >>> b) ≠ 0 ∧ b + x0 < 64 ∧
          d (x0 + b + (y0 + r) * 64) = 1) →
        (l.foldl (drawRowStep mem Iv x0 y0) (d, v)).2 = 1) ∧
      ((¬ ∃ r ∈ l, r + y0 < 32 ∧ ∃ b, b < 8 ∧
          mem (Iv + r) &&& (0x80 >>> b) ≠ 0 ∧ b + x0 < 64 ∧
          d (x0 + b + (y0 + r) * 64) = 1) →
        (l.foldl (drawRowStep mem Iv x0 y0) (d, v)).2 = v) := by
  intro l
  induction l with
  | nil =>
      intro _ d v
      constructor
      · rintro ⟨r, hr, -⟩
        exact absurd hr (List.not_mem_nil r)
      · intro _
        rfl
  | cons a t ih =>
      intro hnd d v
      obtain ⟨hat, hnd'⟩ := List.nodup_cons.mp hnd
      by_cases hclip : a + y0 ≥ 32
      · have hstep : drawRowStep mem Iv x0 y0 (d, v) a = (d, v) := by
          simp [drawRowStep, hclip]
        rw [List.foldl_cons, hstep]
        constructor
        · rintro ⟨r, hr, hry, h3⟩
          rcases List.mem_cons.mp hr with heq | hrt
          · subst heq
            omega
          · exact (ih hnd' d v).1 ⟨r, hrt, hry, h3⟩
        · intro hno
          refine (ih hnd' d v).2 ?_
          rintro ⟨r, hrt, h3⟩
          exact hno ⟨r, List.mem_cons_of_mem a hrt, h3⟩
      · have hclip' : a + y0 < 32 := by omega
        have hstep : drawRowStep mem Iv x0 y0 (d, v) a
            = (List.range 8).foldl
                (drawBitStep (mem (Iv + a)) x0 (y0 + a)) (d, v) := by
          simp [drawRowStep, hclip]
        rw [List.foldl_cons, hstep]
        generalize hD : (List.range 8).foldl
          (drawBitStep (mem (Iv + a)) x0 (y0 + a)) (d, v) = D
        obtain ⟨d1, v1⟩ := D
        have hd1miss : ∀ p, (¬ ∃ b ∈ List.range 8,
            mem (Iv + a) &&& (0x80 >>> b) ≠ 0 ∧ b + x0 < 64 ∧
            p = x0 + b + (y0 + a) * 64) → d1 p = d p := by
          intro p hp
          have h := (bits_disp (mem (Iv + a)) x0 (y0 + a) (List.range 8)
            (List.nodup_range 8) d v p).2 hp
          rw [hD] at h
          exact h
        have hv1hit : (∃ b ∈ List.range 8,
            mem (Iv + a) &&& (0x80 >>> b) ≠ 0 ∧ b + x0 < 64 ∧
            d (x0 + b + (y0 + a) * 64) = 1) → v1 = 1 := by
          intro hp
          have h := (bits_vf (mem (Iv + a)) x0 (y0 + a) (List.range 8)
            (List.nodup_range 8) d v).1 hp
          rw [hD] at h
          exact h
        have hv1miss : (¬ ∃ b ∈ List.range 8,
            mem (Iv + a) &&& (0x80 >>> b) ≠ 0 ∧ b + x0 < 64 ∧
            d (x0 + b + (y0 + a) * 64) = 1) → v1 = v := by
          intro hp
          have h := (bits_vf (mem (Iv + a)) x0 (y0 + a) (List.range 8)
            (List.nodup_range 8) d v).2 hp
          rw [hD] at h
          exact h
        constructor
        · rintro ⟨r, hr, hry, b, hb8, hbset, hbin, hbd⟩
          rcases List.mem_cons.mp hr with heq | hrt
          · subst heq
            have hv1 : v1 = 1 :=
              hv1hit ⟨b, List.mem_range.mpr hb8, hbset, hbin, hbd⟩
            by_cases hrest : ∃ r' ∈ t, r' + y0 < 32 ∧ ∃ b', b' < 8 ∧
                mem (Iv + r') &&& (0x80 >>> b') ≠ 0 ∧ b' + x0 < 64 ∧
                d1 (x0 + b' + (y0 + r') * 64) = 1
            · exact (ih hnd' d1 v1).1 hrest
            · rw [(ih hnd' d1 v1).2 hrest, hv1]
          · have hra : r ≠ a := fun h => hat (h ▸ hrt)
            have hmiss : ¬ ∃ b' ∈ List.range 8,
                mem (Iv + a) &&& (0x80 >>> b') ≠ 0 ∧ b' + x0 < 64 ∧
                x0 + b + (y0 + r) * 64 = x0 + b' + (y0 + a) * 64 := by
              rintro ⟨b', hb'mem, hb'set, hb'in, hb'idx⟩
              omega
            refine (ih hnd' d1 v1).1 ⟨r, hrt, hry, b, hb8, hbset, hbin, ?_⟩
            rw [hd1miss _ hmiss]
            exact hbd
        · intro hno
          have hv1 : v1 = v := by
            refine hv1miss ?_
            rintro ⟨b', hb'mem, hb'set, hb'in, hb'd⟩
            exact hno ⟨a, List.mem_cons_self a t, hclip', b',
              List.mem_range.mp hb'mem, hb'set, hb'in, hb'd⟩
          have hnt : ¬ ∃ r ∈ t, r + y0 < 32 ∧ ∃ b, b < 8 ∧
              mem (Iv + r) &&& (0x80 >>> b) ≠ 0 ∧ b + x0 < 64 ∧
              d1 (x0 + b + (y0 + r) * 64) = 1 := by
            rintro ⟨r, hrt, hry, b, hb8, hbset, hbin, hbd1⟩
            have hra : r ≠ a := fun h => hat (h ▸ hrt)
            have hmiss : ¬ ∃ b' ∈ List.range 8,
                mem (Iv + a) &&& (0x80 >>> b') ≠ 0 ∧ b' + x0 < 64 ∧
                x0 + b + (y0 + r) * 64 = x0 + b' + (y0 + a) * 64 := by
              rintro ⟨b', hb'mem, hb'set, hb'in, hb'idx⟩
              omega
            rw [hd1miss _ hmiss] at hbd1
            exact hno ⟨r, List.mem_cons_of_mem a hrt, hry, b, hb8, hbset,
              hbin, hbd1⟩
          rw [(ih hnd' d1 v1).2 hnt, hv1]

/-- Characterization of the full `DXYN` blit: a pixel is toggled exactly
when the sprite hits it, and the collision flag output is 1 exactly when
some unclipped set bit lands on a lit pixel. -/
lemma drawSprite_spec (mem : Nat → Nat) (Iv x0 y0 n : Nat) (d : Nat → Nat) :
    (∀ idx, spriteHits mem Iv x0 y0 n idx →
      (drawSprite mem Iv x0 y0 n d).1 idx = d idx ^^^ 1) ∧
    (∀ idx, ¬ spriteHits mem Iv x0 y0 n idx →
      (drawSprite mem Iv x0 y0 n d).1 idx = d idx) ∧
    (spriteCollides mem Iv x0 y0 n d →
      (drawSprite mem Iv x0 y0 n d).2 = 1) ∧
    (¬ spriteCollides mem Iv x0 y0 n d →
      (drawSprite mem Iv x0 y0 n d).2 = 0) := by
  refine ⟨?_, ?_, ?_, ?_⟩
  · rintro idx ⟨r, hr, h3⟩
    exact (rows_disp mem Iv x0 y0 (List.range n) (List.nodup_range n)
      d 0 idx).1 ⟨r, List.mem_range.mpr hr, h3⟩
  · intro idx h
    refine (rows_disp mem Iv x0 y0 (List.range n) (List.nodup_range n)
      d 0 idx).2 ?_
    rintro ⟨r, hrmem, h3⟩
    exact h ⟨r, List.mem_range.mp hrmem, h3⟩
  · rintro ⟨r, hr, h3⟩
    exact (rows_vf mem Iv x0 y0 (List.range n) (List.nodup_range n)
      d 0).1 ⟨r, List.mem_range.mpr hr, h3⟩
  · intro h
    refine (rows_vf mem Iv x0 y0 (List.range n) (List.nodup_range n)
      d 0).2 ?_
    rintro ⟨r, hrmem, h3⟩
    exact h ⟨r, List.mem_range.mp hrmem, h3⟩

lemma xor_one_xor_one (a : Nat) : a ^^^ 1 ^^^ 1 = a := by
  rw [Nat.xor_assoc]
  simp

lemma xor_one_eq_one {a : Nat} : a ^^^ 1 = 1 ↔ a = 0 := by
  constructor
  · intro h
    have h2 := congrArg (fun z => z ^^^ 1) h
    simpa [Nat.xor_assoc] using h2
  · rintro rfl
    rfl

/-- Blitting the same sprite twice restores every pixel, and the second
blit reports a collision exactly when some unclipped set bit lands on a
pixel that was clear before the first blit. -/
lemma drawSprite_twice (mem : Nat → Nat) (Iv x0 y0 n : Nat) (d : Nat → Nat) :
    (∀ idx, (drawSprite mem Iv x0 y0 n
        (drawSprite mem Iv x0 y0 n d).1).1 idx = d idx) ∧
    ((drawSprite mem Iv x0 y0 n (drawSprite mem Iv x0 y0 n d).1).2 = 1 ↔
      ∃ r, r < n ∧ r + y0 < 32 ∧ ∃ b, b < 8 ∧
        mem (Iv + r) &&& (0x80 >>> b) ≠ 0 ∧ b + x0 < 64 ∧
        d (x0 + b + (y0 + r) * 64) = 0) := by
  obtain ⟨hhit1, hmiss1, hcol1, hncol1⟩ := drawSprite_spec mem Iv x0 y0 n d
  obtain ⟨hhit2, hmiss2, hcol2, hncol2⟩ := drawSprite_spec mem Iv x0 y0 n
    (drawSprite mem Iv x0 y0 n d).1
  constructor
  · intro idx
    by_cases h : spriteHits mem Iv x0 y0 n idx
    · rw [hhit2 idx h, hhit1 idx h, xor_one_xor_one]
    · rw [hmiss2 idx h, hmiss1 idx h]
  · constructor
    · intro h
      by_cases hc : spriteCollides mem Iv x0 y0 n
          (drawSprite mem Iv x0 y0 n d).1
      · obtain ⟨r, hr, hry, b, hb8, hbset, hbin, hd1⟩ := hc
        have hh : spriteHits mem Iv x0 y0 n (x0 + b + (y0 + r) * 64) :=
          ⟨r, hr, hry, b, hb8, hbset, hbin, rfl⟩
        rw [hhit1 _ hh] at hd1
        exact ⟨r, hr, hry, b, hb8, hbset, hbin, xor_one_eq_one.mp hd1⟩
      · have h0 := hncol2 hc
        omega
    · rintro ⟨r, hr, hry, b, hb8, hbset, hbin, hd0⟩
      apply hcol2
      refine ⟨r, hr, hry, b, hb8, hbset, hbin, ?_⟩
      have hh : spriteHits mem Iv x0 y0 n (x0 + b + (y0 + r) * 64) :=
        ⟨r, hr, hry, b, hb8, hbset, hbin, rfl⟩
      rw [hhit1 _ hh, hd0]
      rfl

/-- Shared description of the `DXYN` branch of `emulate_cycle`. -/
lemma execD_spec (s : Chip8) (op : Nat)
    (hD : (op &&& 0xF000) >>> 12 = 13) :
    execOp op s = ⟨{ s with
      display := (drawSprite s.memory s.I
        (s.V ((op &&& 0xF00) >>> 8) % 64)
        (s.V ((op &&& 0xF0) >>> 4) % 32) (op &&& 0xF) s.display).1,
      V := upd s.V 15 (drawSprite s.memory s.I
        (s.V ((op &&& 0xF00) >>> 8) % 64)
        (s.V ((op &&& 0xF0) >>> 4) % 32) (op &&& 0xF) s.display).2,
      draw_flag := 1,
      PC := pc2 s.PC }, true, false, false⟩ := by
  simp [execOp, execD, hD]

/-- A batch given a positive budget performs at least one cycle. -/
lemma batchCount_pos : ∀ (k : Nat) (s : Chip8), 0 < k → 1 ≤ batchCount k s := by
  intro k s hk
  cases k with
  | zero => omega
  | succ k =>
      simp only [batchCount]
      split <;> omega

/-- Structure of the scheduler batch: it performs `batchCount k s ≤ k`
cycles, its final state is the plain `emulate_cycle` iterate of that
length, none of the cycles before the last reported a redraw, and if the
batch stopped short of its budget then its last cycle did report one. -/
lemma batch_spec : ∀ (k : Nat) (s : Chip8),
    batchCount k s ≤ k ∧
    runBatch k s = cyclesIter (batchCount k s) s ∧
    (∀ i, i + 1 < batchCount k s →
      (emulateCycle (cyclesIter i s)).drew = false) ∧
    (batchCount k s < k →
      (emulateCycle (cyclesIter (batchCount k s - 1) s)).drew = true) := by
  intro k
  induction k with
  | zero =>
      intro s
      refine ⟨Nat.le_refl 0, rfl, ?_, ?_⟩
      · intro i h
        simp [batchCount] at h
      · intro h
        simp [batchCount] at h
  | succ k ih =>
      intro s
      by_cases hd : (emulateCycle s).drew = true
      · have hbc : batchCount (k + 1) s = 1 := by simp [batchCount, hd]
        refine ⟨?_, ?_, ?_, ?_⟩
        · omega
        · rw [hbc]
          simp [runBatch, hd, cyclesIter]
        · intro i h
          rw [hbc] at h
          exact absurd h (by omega)
        · intro _
          rw [hbc]
          simpa [cyclesIter] using hd
      · have hd' : (emulateCycle s).drew = false := by
          simpa using hd
        obtain ⟨ih1, ih2, ih3, ih4⟩ := ih (emulateCycle s).st
        have hbc : batchCount (k + 1) s
            = batchCount k (emulateCycle s).st + 1 := by
          simp [batchCount, hd']
          omega
        refine ⟨?_, ?_, ?_, ?_⟩
        · omega
        · rw [hbc]
          simpa [runBatch, hd', cyclesIter] using ih2
        · intro i h
          rw [hbc] at h
          cases i with
          | zero => simpa [cyclesIter] using hd'
          | succ j =>
              have : j + 1 < batchCount k (emulateCycle s).st := by omega
              simpa [cyclesIter] using ih3 j this
        · intro h
          rw [hbc] at h ⊢
          have hlt : batchCount k (emulateCycle s).st < k := by omega
          have hpos : 1 ≤ batchCount k (emulateCycle s).st :=
            batchCount_pos k _ (by omega)
          obtain ⟨m, hm⟩ : ∃ m, batchCount k (emulateCycle s).st = m + 1 :=
            ⟨batchCount k (emulateCycle s).st - 1, by omega⟩
          have := ih4 (by omega)
          rw [hm] at this ⊢
          simpa [cyclesIter] using this

/-- C9: one scheduler tick performs at most 16 `emulate_cycle` calls,
cuts the batch at the first cycle that requests a redraw, and then
decrements each timer by exactly 1 when it is nonzero (Nat truncated
subtraction: a zero timer stays 0, it is never decremented below 0). -/
theorem scheduler_tick_spec (s : Chip8) :
    batchCount 16 s ≤ 16 ∧
    runBatch 16 s = cyclesIter (batchCount 16 s) s ∧
    (∀ i, i + 1 < batchCount 16 s →
      (emulateCycle (cyclesIter i s)).drew = false) ∧
    (batchCount 16 s < 16 →
      (emulateCycle (cyclesIter (batchCount 16 s - 1) s)).drew = true) ∧
    (tick s).delay_timer = (runBatch 16 s).delay_timer - 1 ∧
    (tick s).sound_timer = (runBatch 16 s).sound_timer - 1 := by
  obtain ⟨h1, h2, h3, h4⟩ := batch_spec 16 s
  refine ⟨h1, h2, h3, h4, ?_, ?_⟩ <;>
    · simp only [tick]
      split_ifs <;> simp_all

/-- Witness for C9 at a concrete state with `delay_timer = 5`. -/
theorem scheduler_tick_spec_witness :
    batchCount 16 { st0 with delay_timer := 5 } ≤ 16 ∧
    (tick { st0 with delay_timer := 5 }).delay_timer
      = (runBatch 16 { st0 with delay_timer := 5 }).delay_timer - 1 :=
  ⟨(scheduler_tick_spec { st0 with delay_timer := 5 }).1,
    (scheduler_tick_spec { st0 with delay_timer := 5 }).2.2.2.2.1⟩

/-- C10: for the `8XY4/5/6/7/E` opcodes with `X = 0xF`, the final value of
`VF` is the flag (carry, not-borrow, or shifted-out bit), every other
register is untouched, and the arithmetic/shift result is discarded. -/
theorem alu_flag_wins_when_x_is_f (s : Chip8) (op : Nat)
    (h8 : (op &&& 0xF000) >>> 12 = 8)
    (hX : (op &&& 0xF00) >>> 8 = 15) :
    (op &&& 0xF = 4 →
      (execOp op s).st.V 15
        = (if s.V 15 + s.V ((op &&& 0xF0) >>> 4) > 255 then 1 else 0) ∧
      ∀ i, i ≠ 15 → (execOp op s).st.V i = s.V i) ∧
    (op &&& 0xF = 5 →
      (execOp op s).st.V 15
        = (if s.V 15 ≥ s.V ((op &&& 0xF0) >>> 4) then 1 else 0) ∧
      ∀ i, i ≠ 15 → (execOp op s).st.V i = s.V i) ∧
    (op &&& 0xF = 6 →
      (execOp op s).st.V 15
        = (if s.V ((op &&& 0xF0) >>> 4) &&& 1 ≠ 0 then 1 else 0) ∧
      ∀ i, i ≠ 15 → (execOp op s).st.V i = s.V i) ∧
    (op &&& 0xF = 7 →
      (execOp op s).st.V 15
        = (if s.V ((op &&& 0xF0) >>> 4) ≥ s.V 15 then 1 else 0) ∧
      ∀ i, i ≠ 15 → (execOp op s).st.V i = s.V i) ∧
    (op &&& 0xF = 0xE →
      (execOp op s).st.V 15
        = (if s.V ((op &&& 0xF0) >>> 4) &&& 0x80 ≠ 0 then 1 else 0) ∧
      ∀ i, i ≠ 15 → (execOp op s).st.V i = s.V i) := by
  refine ⟨?_, ?_, ?_, ?_, ?_⟩ <;> intro hsub <;>
    refine ⟨by simp [execOp, exec8, h8, hX, hsub, upd], ?_⟩ <;>
      intro i hi <;> simp [execOp, exec8, h8, hX, hsub, upd, hi]

/-- Witness for C10 at `op = 0x8F04`, `s = st0`. -/
theorem alu_flag_wins_when_x_is_f_witness :
    (((0x8F04 : Nat) &&& 0xF000) >>> 12 = 8 ∧
      ((0x8F04 : Nat) &&& 0xF00) >>> 8 = 15 ∧ (0x8F04 : Nat) &&& 0xF = 4) ∧
    ((execOp 0x8F04 st0).st.V 15
        = (if st0.V 15 + st0.V ((0x8F04 &&& 0xF0) >>> 4) > 255
           then 1 else 0) ∧
      ∀ i, i ≠ 15 → (execOp 0x8F04 st0).st.V i = st0.V i) :=
  ⟨⟨by decide, by decide, by decide⟩,
    (alu_flag_wins_when_x_is_f st0 0x8F04 (by decide) (by decide)).1
      (by decide)⟩

/-- C7: `DXYN` draws at origin `(VX mod 64, VY mod 32)`; only pixels hit
by an in-bounds set sprite bit can change (out-of-range bits are skipped
without wrapping to another row or column), the collision flag is 1
exactly when an in-bounds set bit lands on a lit pixel (so clipped bits
contribute no collision), and with origin column 63 only column 63 is
affected. -/
theorem dxyn_clipping (s : Chip8) (op : Nat)
    (hD : (op &&& 0xF000) >>> 12 = 13) :
    (∀ idx, (execOp op s).st.display idx ≠ s.display idx →
      spriteHits s.memory s.I (s.V ((op &&& 0xF00) >>> 8) % 64)
        (s.V ((op &&& 0xF0) >>> 4) % 32) (op &&& 0xF) idx) ∧
    ((execOp op s).st.V 15 = 1 ↔
      spriteCollides s.memory s.I (s.V ((op &&& 0xF00) >>> 8) % 64)
        (s.V ((op &&& 0xF0) >>> 4) % 32) (op &&& 0xF) s.display) ∧
    (s.V ((op &&& 0xF00) >>> 8) % 64 = 63 →
      ∀ idx, (execOp op s).st.display idx ≠ s.display idx →
        idx % 64 = 63) := by
  obtain ⟨hhit, hmiss, hcol, hncol⟩ := drawSprite_spec s.memory s.I
    (s.V ((op &&& 0xF00) >>> 8) % 64) (s.V ((op &&& 0xF0) >>> 4) % 32)
    (op &&& 0xF) s.display
  have hst : (execOp op s).st.display
      = (drawSprite s.memory s.I (s.V ((op &&& 0xF00) >>> 8) % 64)
          (s.V ((op &&& 0xF0) >>> 4) % 32) (op &&& 0xF) s.display).1 := by
    rw [execD_spec s op hD]
  have hv : (execOp op s).st.V 15
      = (drawSprite s.memory s.I (s.V ((op &&& 0xF00) >>> 8) % 64)
          (s.V ((op &&& 0xF0) >>> 4) % 32) (op &&& 0xF) s.display).2 := by
    rw [execD_spec s op hD]
    simp [upd]
  refine ⟨?_, ?_, ?_⟩
  · intro idx hne
    rw [hst] at hne
    by_contra h
    exact hne (hmiss idx h)
  · rw [hv]
    constructor
    · intro h
      by_contra hc
      have h0 := hncol hc
      omega
    · exact hcol
  · intro hx idx hne
    rw [hst] at hne
    have hh : spriteHits s.memory s.I (s.V ((op &&& 0xF00) >>> 8) % 64)
        (s.V ((op &&& 0xF0) >>> 4) % 32) (op &&& 0xF) idx := by
      by_contra h
      exact hne (hmiss idx h)
    obtain ⟨r, hr, hry, b, hb8, hbset, hbin, hbidx⟩ := hh
    omega

/-- Witness for C7 at `op = 0xD001`, `s = st0`. -/
theorem dxyn_clipping_witness :
    ((0xD001 : Nat) &&& 0xF000) >>> 12 = 13 ∧
    ((execOp 0xD001 st0).st.V 15 = 1 ↔
      spriteCollides st0.memory st0.I
        (st0.V ((0xD001 &&& 0xF00) >>> 8) % 64)
        (st0.V ((0xD001 &&& 0xF0) >>> 4) % 32) (0xD001 &&& 0xF)
        st0.display) :=
  ⟨by decide, (dxyn_clipping st0 0xD001 (by decide)).2.1⟩

/-- A state with a one-byte sprite `0x80` at `I = 0x300` and the pixel at
display index 0 already lit. -/
def stLitPixel : Chip8 :=
  { st0 with
    memory := fun a => if a = 0x300 then 0x80 else 0,
    I := 0x300,
    display := fun i => if i = 0 then 1 else 0 }

/-- C8 counterexample: with a one-byte sprite `0x80` drawn at (0,0) over
a display whose pixel 0 is already lit, the second of two identical draws
reports `VF = 0` even though the sprite has an in-bounds set bit — the
claim's "VF = 1 whenever the sprite has at least one in-bounds set bit"
is false. -/
theorem dxyn_double_draw_counterexample :
    (execOp 0xD001 (execOp 0xD001 stLitPixel).st).st.V 15 = 0 ∧
    stLitPixel.memory (stLitPixel.I + 0) &&& (0x80 >>> 0) ≠ 0 ∧
    0 + stLitPixel.V 0 % 64 < 64 ∧ 0 + stLitPixel.V 0 % 32 < 32 ∧
    (0 : Nat) < 0xD001 &&& 0xF := by decide

/-- C8 amended: executing `DXYN` twice in succession with identical VX,
VY, N, I and unchanged sprite bytes (`X, Y ≠ 0xF`, so the draws cannot
disturb their own operands) restores every pixel to its value before the
first draw, and the second draw sets `VF = 1` if and only if the sprite
has at least one in-bounds set bit whose destination pixel was clear (0)
before the first draw. -/
theorem dxyn_twice_restores (s : Chip8) (op : Nat)
    (hD : (op &&& 0xF000) >>> 12 = 13)
    (hX : (op &&& 0xF00) >>> 8 ≠ 15) (hY : (op &&& 0xF0) >>> 4 ≠ 15) :
    (∀ idx, (execOp op (execOp op s).st).st.display idx = s.display idx) ∧
    ((execOp op (execOp op s).st).st.V 15 = 1 ↔
      ∃ r, r < (op &&& 0xF) ∧
        r + s.V ((op &&& 0xF0) >>> 4) % 32 < 32 ∧ ∃ b, b < 8 ∧
        s.memory (s.I + r) &&& (0x80 >>> b) ≠ 0 ∧
        b + s.V ((op &&& 0xF00) >>> 8) % 64 < 64 ∧
        s.display (s.V ((op &&& 0xF00) >>> 8) % 64 + b +
          (s.V ((op &&& 0xF0) >>> 4) % 32 + r) * 64) = 0) := by
  have h1 := execD_spec s op hD
  have hmem1 : (execOp op s).st.memory = s.memory := by rw [h1]
  have hI1 : (execOp op s).st.I = s.I := by rw [h1]
  have hVX1 : (execOp op s).st.V ((op &&& 0xF00) >>> 8)
      = s.V ((op &&& 0xF00) >>> 8) := by
    rw [h1]
    simp [upd, hX]
  have hVY1 : (execOp op s).st.V ((op &&& 0xF0) >>> 4)
      = s.V ((op &&& 0xF0) >>> 4) := by
    rw [h1]
    simp [upd, hY]
  have hdisp1 : (execOp op s).st.display
      = (drawSprite s.memory s.I (s.V ((op &&& 0xF00) >>> 8) % 64)
          (s.V ((op &&& 0xF0) >>> 4) % 32) (op &&& 0xF) s.display).1 := by
    rw [h1]
  have h2 := execD_spec (execOp op s).st op hD
  have hdisp2 : (execOp op (execOp op s).st).st.display
      = (drawSprite s.memory s.I (s.V ((op &&& 0xF00) >>> 8) % 64)
          (s.V ((op &&& 0xF0) >>> 4) % 32) (op &&& 0xF)
          ((drawSprite s.memory s.I (s.V ((op &&& 0xF00) >>> 8) % 64)
            (s.V ((op &&& 0xF0) >>> 4) % 32) (op &&& 0xF)
            s.display).1)).1 := by
    rw [h2, hmem1, hI1, hVX1, hVY1, hdisp1]
  have hvf2 : (execOp op (execOp op s).st).st.V 15
      = (drawSprite s.memory s.I (s.V ((op &&& 0xF00) >>> 8) % 64)
          (s.V ((op &&& 0xF0) >>> 4) % 32) (op &&& 0xF)
          ((drawSprite s.memory s.I (s.V ((op &&& 0xF00) >>> 8) % 64)
            (s.V ((op &&& 0xF0) >>> 4) % 32) (op &&& 0xF)
            s.display).1)).2 := by
    rw [h2, hmem1, hI1, hVX1, hVY1, hdisp1]
    simp [upd]
  constructor
  · intro idx
    rw [hdisp2]
    exact (drawSprite_twice s.memory s.I
      (s.V ((op &&& 0xF00) >>> 8) % 64) (s.V ((op &&& 0xF0) >>> 4) % 32)
      (op &&& 0xF) s.display).1 idx
  · rw [hvf2]
    exact (drawSprite_twice s.memory s.I
      (s.V ((op &&& 0xF00) >>> 8) % 64) (s.V ((op &&& 0xF0) >>> 4) % 32)
      (op &&& 0xF) s.display).2

/-- Witness for the amended C8 theorem at `op = 0xD001`, `s = st0`. -/
theorem dxyn_twice_restores_witness :
    (((0xD001 : Nat) &&& 0xF000) >>> 12 = 13 ∧
      ((0xD001 : Nat) &&& 0xF00) >>> 8 ≠ 15 ∧
      ((0xD001 : Nat) &&& 0xF0) >>> 4 ≠ 15) ∧
    (∀ idx, (execOp 0xD001 (execOp 0xD001 st0).st).st.display idx
      = st0.display idx) :=
  ⟨⟨by decide, by decide, by decide⟩,
    (dxyn_twice_restores st0 0xD001 (by decide) (by decide) (by decide)).1⟩
